import Mathlib

/-!
Shallow embedding of the `ci_farm` repository (slave.py, builder.py, cli.py)
for checking the natural-language specification against the code.

Strings are embedded as `List Char`; the worker-side lock file is embedded as
`Option (List Char)` (absent / content).  Python exceptions that the embedded
code can raise or catch are reified in `PyExc`; a function that can let an
exception escape to its caller returns `Except PyExc _`.
-/

namespace CiFarm

/-- Python exceptions relevant to the embedded code paths. -/
inductive PyExc where
  | fileNotFound
  | valueError
deriving DecidableEq, Repr

/-- Characters stripped by Python `str.strip()` (the ASCII whitespace set). -/
def isPySpace (c : Char) : Bool :=
  c == ' ' || c == '\t' || c == '\n' || c == '\r' || c == '\x0b' || c == '\x0c'

/-- Model of Python `str.strip()`: drop leading and trailing whitespace. -/
def pyStrip (s : List Char) : List Char :=
  ((s.dropWhile isPySpace).reverse.dropWhile isPySpace).reverse

/-- Model of Python `str.split(sep)` for a one-character separator: the result
always has at least one element, and empty fields are kept. -/
def pySplit (sep : Char) : List Char → List (List Char)
  | [] => [[]]
  | c :: cs =>
    match pySplit sep cs with
    | [] => [[c]]
    | l :: ls => if c == sep then [] :: l :: ls else (c :: l) :: ls

/-- Numeric value of a digit character. -/
def digitToNat (c : Char) : Nat := c.toNat - 48

/-- Decimal value of a digit string (most significant first). -/
def digitsToNat (s : List Char) : Nat :=
  s.foldl (fun a c => 10 * a + digitToNat c) 0

/-- Model of Python's `float()` builtin restricted to plain signed decimal
notation (`[+-] digits [. digits]`), which covers every string this program
feeds it (timestamps rendered by `f"{time.time()}"`).  `none` models the
`ValueError` that `float()` raises on a malformed string. -/
def parsePyFloat (s : List Char) : Option ℚ :=
  let sg : ℚ × List Char :=
    match s with
    | '-' :: r => (-1, r)
    | '+' :: r => (1, r)
    | r => (1, r)
  match pySplit '.' sg.2 with
  | [ip] =>
    if !ip.isEmpty && ip.all Char.isDigit then
      some (sg.1 * (digitsToNat ip : ℚ))
    else none
  | [ip, fp] =>
    if (!ip.isEmpty || !fp.isEmpty) && ip.all Char.isDigit && fp.all Char.isDigit then
      some (sg.1 * ((digitsToNat ip : ℚ) + (digitsToNat fp : ℚ) / (10 : ℚ) ^ fp.length))
    else none
  | _ => none

/-! ## Exclusivity lock (slave.py: is_busy / acquire_lock / release_lock / get_lock_info)

The lock file at `<build_dir>/.ci-farm.lock` is embedded as
`Option (List Char)`: `none` when absent, `some content` when present. -/

/-- Content written by `acquire_lock`: `f"{project_name}\n{time.time()}\n"`.
The wall-clock reading is passed in as its decimal rendering `ts`. -/
def lockContent (p ts : List Char) : List Char :=
  p ++ '\n' :: (ts ++ ['\n'])

/-- `SlaveConnection.acquire_lock`: unconditionally overwrites the lock file
with the new record (last-writer-wins, no create-if-absent). -/
def acquire_lock (p ts : List Char) (_fs : Option (List Char)) : Option (List Char) :=
  some (lockContent p ts)

/-- `SlaveConnection.is_busy`: `sftp.stat` on the lock path succeeds iff the
file exists. -/
def is_busy (fs : Option (List Char)) : Bool := fs.isSome

/-- `sftp.remove`: raises `FileNotFoundError` when the path is absent. -/
def sftp_remove (fs : Option (List Char)) : Except PyExc (Option (List Char)) :=
  match fs with
  | some _ => .ok none
  | none => .error .fileNotFound

/-- `SlaveConnection.release_lock`: removes the lock file, catching
`FileNotFoundError` (`except FileNotFoundError: pass`). -/
def release_lock (fs : Option (List Char)) : Option (List Char) :=
  match sftp_remove fs with
  | .ok fs' => fs'
  | .error _ => fs

/-- `SlaveConnection.get_lock_info`: reads the lock file, strips and splits the
content on newlines and, when at least two lines remain, returns
`(lines[0], float(lines[1]))`.  Only `FileNotFoundError` is caught;
the `ValueError` raised by `float()` on a malformed second line escapes. -/
def get_lock_info (fs : Option (List Char)) : Except PyExc (Option (List Char × ℚ)) :=
  match fs with
  | none => .ok none
  | some content =>
    match pySplit '\n' (pyStrip content) with
    | l0 :: l1 :: _ =>
      match parsePyFloat l1 with
      | some t => .ok (some (l0, t))
      | none => .error .valueError
    | _ => .ok none

/-! ## Remote command execution (slave.py: SlaveConnection.exec_command)

The poll loop keeps one text buffer per output stream.  Each arriving chunk is
appended to its stream's buffer and the buffer is repeatedly split at the first
newline, delivering each completed line to the stream's callback; once the exit
status is observed, any non-empty remainder is flushed once to the callback.
The two streams are handled independently with identical logic, so the loop is
embedded per stream as a fold over that stream's chunk arrival order. -/

/-- Split a buffer into its completed (newline-terminated) lines and the
trailing fragment after the last newline — the result of the code's
`while "\n" in buffer: line, buffer = buffer.split("\n", 1)` loop. -/
def splitLines : List Char → List (List Char) × List Char
  | [] => ([], [])
  | c :: cs =>
    let r := splitLines cs
    if c == '\n' then ([] :: r.1, r.2)
    else
      match r.1 with
      | [] => ([], c :: r.2)
      | l :: ls => ((c :: l) :: ls, r.2)

/-- Process a stream's chunks in arrival order, threading the carry buffer:
returns the lines delivered during the loop and the final buffer content. -/
def processChunks (buf : List Char) : List (List Char) → List (List Char) × List Char
  | [] => ([], buf)
  | ch :: rest =>
    let p := splitLines (buf ++ ch)
    let q := processChunks p.2 rest
    (p.1 ++ q.1, q.2)

/-- Calls made to one stream's callback: those issued inside the poll loop and
those issued by the flush after the exit status was observed. -/
structure StreamEvents where
  loop_calls : List (List Char)
  flush_calls : List (List Char)
deriving DecidableEq, Repr

/-- One stream's callback activity in `exec_command`: lines during the loop,
then a single flush of the buffer if it is non-empty (`if stdout_buffer and
on_stdout: on_stdout(stdout_buffer)`). -/
def runStream (chunks : List (List Char)) : StreamEvents :=
  let p := processChunks [] chunks
  { loop_calls := p.1, flush_calls := if p.2.isEmpty then [] else [p.2] }

/-- Result of `exec_command`: per-stream callback activity plus the exit
status returned to the caller. -/
structure ExecResult where
  stdout_events : StreamEvents
  stderr_events : StreamEvents
  exit_status : Nat
deriving DecidableEq, Repr

/-- `SlaveConnection.exec_command`, abstracted over what arrives on each
stream (chunk lists in arrival order) and the process exit status. -/
def exec_command (stdout_chunks stderr_chunks : List (List Char))
    (status : Nat) : ExecResult :=
  { stdout_events := runStream stdout_chunks
    stderr_events := runStream stderr_chunks
    exit_status := status }

/-! ## Build-command detection (builder.py: BUILD_MARKERS / detect_build_command) -/

/-- The ordered marker table from builder.py (Python dicts preserve insertion
order, so iteration visits the entries in this order). -/
def BUILD_MARKERS : List (String × String) :=
  [("Makefile", "make"),
   ("CMakeLists.txt", "cmake -B build && cmake --build build"),
   ("package.json", "npm install && npm run build"),
   ("Cargo.toml", "cargo build --release"),
   ("go.mod", "go build ./..."),
   ("pyproject.toml", "pip install -e . && python -m pytest"),
   ("setup.py", "pip install -e . && python -m pytest"),
   (".ci/build.sh", "bash .ci/build.sh"),
   ("build.sh", "bash build.sh")]

/-- The scan loop of `detect_build_command` over an explicit marker table. -/
def detectFrom (ex : String → Bool) : List (String × String) → Option String
  | [] => none
  | mc :: rest => if ex mc.1 then some mc.2 else detectFrom ex rest

/-- `detect_build_command`, abstracted over which marker files exist in the
project directory (`(project_path / marker).exists()`). -/
def detect_build_command (ex : String → Bool) : Option String :=
  detectFrom ex BUILD_MARKERS

/-! ## Credential choice (slave.py: SlaveConnection.connect) -/

/-- Worker configuration fields used by `connect` (config.py `SlaveConfig`). -/
structure SlaveConfig where
  name : String
  host : String
  user : String
  port : Nat
  key : Option String
  password : Option String
  build_dir : String
deriving Repr

/-- Python truthiness of an optional string: `None` and `""` are falsy. -/
def truthy : Option String → Bool
  | none => false
  | some s => !(s == "")

/-- Which credential `connect` passes to the transport. -/
inductive AuthChoice where
  | keyFile (path : String)
  | password (p : String)
  | noAuth
deriving DecidableEq, Repr

/-- The credential selection in `connect`: `if self.config.key:` adds the key
file only when it exists on disk (`if key_path.exists():`), and
`elif self.config.password:` is consulted only when no key is configured.
`ex` models `Path(...).expanduser().exists()`; `__post_init__` has already
expanded the configured path. -/
def connect_auth (cfg : SlaveConfig) (ex : String → Bool) : AuthChoice :=
  if truthy cfg.key then
    if ex (cfg.key.getD "") then .keyFile (cfg.key.getD "") else .noAuth
  else if truthy cfg.password then
    .password (cfg.password.getD "")
  else .noAuth

/-! ## Worker selection (slave.py: check_slave_available / find_available_slave) -/

/-- The info message paired with the availability flag (string formatting of
the elapsed time is not material and is left out). -/
inductive ProbeMsg where
  | connErr
  | busyWith (p : List Char)
  | busyUnknown
  | noMsg
deriving DecidableEq, Repr

/-- Observable state of one worker during a probe: whether the connection
attempt succeeds and the worker's lock file. -/
structure SlaveProbe where
  connect_ok : Bool
  lock_fs : Option (List Char)
deriving Repr

/-- `check_slave_available`: connection failure is caught
(`except SlaveConnectionError`) and reported as unavailable; a busy worker
is inspected via `get_lock_info`, whose `ValueError` is NOT caught and
escapes to the caller. -/
def check_slave_available (pr : SlaveProbe) : Except PyExc (Bool × ProbeMsg) :=
  if pr.connect_ok then
    if is_busy pr.lock_fs then
      match get_lock_info pr.lock_fs with
      | .error e => .error e
      | .ok (some (proj, _)) => .ok (false, .busyWith proj)
      | .ok none => .ok (false, .busyUnknown)
    else .ok (true, .noMsg)
  else .ok (false, .connErr)

/-- `find_available_slave`: scans the list in order, returning the first
worker whose probe reports available.  The first component records which
workers were probed (in order), making the short-circuit observable. -/
def find_available_slave {α : Type} (env : α → SlaveProbe) :
    List α → List α × Except PyExc (Option α)
  | [] => ([], .ok none)
  | s :: rest =>
    match check_slave_available (env s) with
    | .error e => ([s], .error e)
    | .ok (avail, _) =>
      if avail then ([s], .ok (some s))
      else
        let q := find_available_slave env rest
        (s :: q.1, q.2)

/-! ## Build pipeline (builder.py: execute_build)

The pipeline is embedded as a function from an environment describing the
outcome of each effectful step to the trace of step events plus the returned
exit code.  The outer `try ... except Exception: return 1` catches every
exception raised inside the `with` block; the inner `try ... finally:
conn.release_lock()` runs the release on every exit from the body once
`acquire_lock` has returned. -/

/-- Pipeline step events, in execution order. -/
inductive Ev where
  | acquire
  | hook
  | sync
  | build
  | postHook
  | release
deriving DecidableEq, Repr

/-- Outcomes of each effectful step of one `execute_build` run.
`acquire_ok = false` models `acquire_lock` raising (e.g. a transport error
while writing the lock file); a pre-sync hook exit code `≠ 0` makes
`subprocess.run(..., check=True)` raise `CalledProcessError`;
`sync_ok = false` models `sync_project` raising `BuildError` on a non-zero
rsync exit; `build_raises` models `run_build`'s `exec_command` raising (e.g.
a timeout) instead of returning an exit code.  Post-build hook exit codes are
collected by `exec_command` but ignored by the caller. -/
structure PipelineEnv where
  slave_found : Bool
  build_command_arg : Option String
  config_build_command : Option String
  markers : String → Bool
  connect_ok : Bool
  busy : Bool
  acquire_ok : Bool
  pre_sync : List Nat
  sync_ok : Bool
  build_raises : Bool
  build_exit : Nat
  post_build : List Nat

/-- Build command resolution: `command = build_command or
config.project.build_command`, then `if not command: command =
detect_build_command(project_path)`, then `if not command: return 1`. -/
def resolve_command (env : PipelineEnv) : Option String :=
  let c := if truthy env.build_command_arg then env.build_command_arg
           else env.config_build_command
  let c := if truthy c then c else detect_build_command env.markers
  if truthy c then c else none

/-- Outcome of the inner `try` body: a normal `return code`, or an exception
propagating to the `finally` and then to the outer handler. -/
inductive BodyOut where
  | ret (code : Nat)
  | exc
deriving DecidableEq, Repr

/-- The pre-sync hook loop: each hook is run with `check=True`, so the first
non-zero exit raises and stops the loop.  Returns the events of the hooks
that were invoked and whether all of them succeeded. -/
def runHooks : List Nat → List Ev × Bool
  | [] => ([], true)
  | c :: rest =>
    if c = 0 then
      let r := runHooks rest
      (Ev.hook :: r.1, r.2)
    else ([Ev.hook], false)

/-- Body of the inner `try` block: pre-sync hooks, sync, build, and (on a
zero build exit) the post-build hooks; returns the build's exit code. -/
def pipelineBody (env : PipelineEnv) : List Ev × BodyOut :=
  let h := runHooks env.pre_sync
  if !h.2 then (h.1, .exc)
  else if !env.sync_ok then (h.1 ++ [Ev.sync], .exc)
  else if env.build_raises then (h.1 ++ [Ev.sync, Ev.build], .exc)
  else
    let post := if env.build_exit = 0 then env.post_build.map (fun _ => Ev.postHook) else []
    (h.1 ++ [Ev.sync, Ev.build] ++ post, .ret env.build_exit)

/-- `execute_build`: the early-return checks (no slave, no command, busy),
lock acquisition, the inner `try/finally` guaranteeing `release_lock`, and
the outer `except Exception` converting any escaped exception into `1`.
`Ev.acquire` is emitted only when `acquire_lock` returns successfully. -/
def execute_build (env : PipelineEnv) : List Ev × Nat :=
  if !env.slave_found then ([], 1)
  else if !(truthy (resolve_command env)) then ([], 1)
  else if !env.connect_ok then ([], 1)
  else if env.busy then ([], 1)
  else if !env.acquire_ok then ([], 1)
  else
    let b := pipelineBody env
    match b.2 with
    | .ret c => (Ev.acquire :: b.1 ++ [Ev.release], c)
    | .exc => (Ev.acquire :: b.1 ++ [Ev.release], 1)

/-- Whether `acquire_lock` is reached and succeeds in a run. -/
def acquire_succeeds (env : PipelineEnv) : Bool :=
  env.slave_found && truthy (resolve_command env) && env.connect_ok
    && !env.busy && env.acquire_ok

/-- Whether every stage up to and including the build invocation succeeds
(the build command itself is invoked and returns an exit code rather than
raising). -/
def stages_ok (env : PipelineEnv) : Bool :=
  acquire_succeeds env && env.pre_sync.all (· == 0) && env.sync_ok
    && !env.build_raises

/-! ## Pipeline lemmas -/

/-- Every event emitted by the pre-sync hook loop is a hook invocation. -/
theorem runHooks_mem {l : List Nat} {e : Ev} (h : e ∈ (runHooks l).1) :
    e = Ev.hook := by
  induction l with
  | nil => simp [runHooks] at h
  | cons c rest ih =>
    by_cases hc : c = 0
    · simp only [runHooks, if_pos hc, List.mem_cons] at h
      rcases h with h | h
      · exact h
      · exact ih h
    · simp only [runHooks, if_neg hc, List.mem_cons, List.not_mem_nil, or_false] at h
      exact h

/-- The hook loop succeeds iff every pre-sync hook exits zero. -/
theorem runHooks_ok (l : List Nat) : (runHooks l).2 = l.all (· == 0) := by
  induction l with
  | nil => rfl
  | cons c rest ih =>
    by_cases hc : c = 0
    · simp [runHooks, if_pos hc, ih, hc]
    · simp [runHooks, if_neg hc, List.all_cons, hc]

/-- Release events never occur inside the `try` body. -/
theorem pipelineBody_count_release (env : PipelineEnv) :
    (pipelineBody env).1.count Ev.release = 0 := by
  have hr : (runHooks env.pre_sync).1.count Ev.release = 0 :=
    List.count_eq_zero.mpr (fun hm => by have := runHooks_mem hm; simp at this)
  have hp : ∀ l : List Nat, (l.map (fun _ => Ev.postHook)).count Ev.release = 0 :=
    fun l => List.count_eq_zero.mpr (by simp)
  unfold pipelineBody
  by_cases h1 : (runHooks env.pre_sync).2 <;>
    by_cases h2 : env.sync_ok <;>
      by_cases h3 : env.build_exit = 0 <;>
        by_cases h4 : env.build_raises <;>
          simp [h1, h2, h3, h4, List.count_append, List.count_cons,
            List.count_replicate, hr, hp]

/-- C1: once lock acquisition has succeeded, `release_lock` is invoked exactly
once before `execute_build` returns, on every exit path (normal completion,
pre-sync hook failure, sync failure, non-zero build, raised exception); when
acquisition is never reached or fails, no release occurs. -/
theorem c1_release_exactly_once (env : PipelineEnv) :
    (execute_build env).1.count Ev.release
      = if acquire_succeeds env then 1 else 0 := by
  unfold execute_build acquire_succeeds
  by_cases h1 : env.slave_found
  · by_cases h2 : truthy (resolve_command env)
    · by_cases h3 : env.connect_ok
      · by_cases h4 : env.busy
        · simp [h1, h2, h3, h4]
        · by_cases h5 : env.acquire_ok
          · simp only [h1, h2, h3, h4, h5, Bool.not_true, Bool.not_false,
              if_neg (Bool.false_ne_true), if_pos rfl, Bool.and_self, Bool.and_true,
              Bool.true_and, if_true]
            cases hb : (pipelineBody env).2 <;>
              simp [List.count_cons, List.count_append,
                pipelineBody_count_release env]
          · simp [h1, h2, h3, h4, h5]
      · simp [h1, h2, h3]
    · simp [h1, h2]
  · simp [h1]

/-- C2 (amended): the pipeline's result is the build command's own exit code
when every prior stage succeeds (hence `0` on success), and `1` on any other
failure (no slave, no command, unreachable, busy, failed acquire, hook
failure, sync failure). -/
theorem c2_exit_code_characterization (env : PipelineEnv) :
    (execute_build env).2 = if stages_ok env then env.build_exit else 1 := by
  unfold execute_build stages_ok acquire_succeeds
  by_cases h1 : env.slave_found
  · by_cases h2 : truthy (resolve_command env)
    · by_cases h3 : env.connect_ok
      · by_cases h4 : env.busy
        · simp [h1, h2, h3, h4]
        · by_cases h5 : env.acquire_ok
          · simp only [h1, h2, h3, h4, h5, Bool.not_true, Bool.not_false,
              if_neg (Bool.false_ne_true), if_pos rfl, Bool.and_self, Bool.and_true,
              Bool.true_and, if_true]
            unfold pipelineBody
            by_cases h6 : env.pre_sync.all (· == 0)
            · by_cases h7 : env.sync_ok
              · by_cases h8 : env.build_raises
                · simp [runHooks_ok, h6, h7, h8]
                · simp [runHooks_ok, h6, h7, h8]
              · simp [runHooks_ok, h6, h7]
            · simp [runHooks_ok, h6]
          · simp [h1, h2, h3, h4, h5]
      · simp [h1, h2, h3]
    · simp [h1, h2]
  · simp [h1]

/-- C2 (counterexample): with every stage succeeding and a build command that
exits `5`, the pipeline returns `5`, not `1` as the claim states. -/
theorem c2_counterexample :
    (execute_build (PipelineEnv.mk true (some "make") none (fun _ => false)
        true false true [] true false 5 [])).2 ≠ 1 ∧
    (PipelineEnv.mk true (some "make") none (fun _ => false)
        true false true [] true false 5 []).build_exit = 5 := by
  exact ⟨by decide, rfl⟩

/-- C7: when the lock has been acquired and some pre-sync hook exits non-zero,
no sync invocation and no build invocation occurs, the lock is released
exactly once, and the pipeline's result is `1`. -/
theorem c7_hook_failure_aborts (env : PipelineEnv)
    (hacq : acquire_succeeds env = true)
    (hfail : env.pre_sync.all (· == 0) = false) :
    (execute_build env).1.count Ev.sync = 0 ∧
    (execute_build env).1.count Ev.build = 0 ∧
    (execute_build env).1.count Ev.release = 1 ∧
    (execute_build env).2 = 1 := by
  unfold acquire_succeeds at hacq
  simp only [Bool.and_eq_true, Bool.not_eq_true'] at hacq
  obtain ⟨⟨⟨⟨h1, h2⟩, h3⟩, h4⟩, h5⟩ := hacq
  have hbody : pipelineBody env = ((runHooks env.pre_sync).1, .exc) := by
    unfold pipelineBody
    simp [runHooks_ok, hfail]
  have hrun : execute_build env
      = (Ev.acquire :: (runHooks env.pre_sync).1 ++ [Ev.release], 1) := by
    unfold execute_build
    simp [h1, h2, h3, h4, h5, hbody]
  have hcount : ∀ e : Ev, e ≠ Ev.hook → (runHooks env.pre_sync).1.count e = 0 := by
    intro e he
    exact List.count_eq_zero.mpr (fun hm => he (runHooks_mem hm))
  refine ⟨?_, ?_, ?_, by rw [hrun]⟩
  · rw [hrun]
    simp [List.count_cons, List.count_append, hcount Ev.sync (by simp)]
  · rw [hrun]
    simp [List.count_cons, List.count_append, hcount Ev.build (by simp)]
  · rw [hrun]
    simp [List.count_cons, List.count_append, hcount Ev.release (by simp)]

/-- Witness for C7 at a concrete environment whose second pre-sync hook exits
with code 2. -/
theorem c7_hook_failure_aborts_witness :
    (execute_build (PipelineEnv.mk true (some "make") none (fun _ => false)
        true false true [0, 2] true false 0 [])).1.count Ev.sync = 0 ∧
    (execute_build (PipelineEnv.mk true (some "make") none (fun _ => false)
        true false true [0, 2] true false 0 [])).1.count Ev.build = 0 ∧
    (execute_build (PipelineEnv.mk true (some "make") none (fun _ => false)
        true false true [0, 2] true false 0 [])).1.count Ev.release = 1 ∧
    (execute_build (PipelineEnv.mk true (some "make") none (fun _ => false)
        true false true [0, 2] true false 0 [])).2 = 1 :=
  c7_hook_failure_aborts _ (by decide) (by decide)

/-! ## Lock inspection, credentials, marker detection, ownerless release -/

/-- C4 (code bug): on a lock file whose second line is not a valid decimal
timestamp, `get_lock_info` raises `ValueError` out of `float(lines[1])`
instead of returning `None` — only `FileNotFoundError` is caught. -/
theorem c4_malformed_timestamp_raises :
    get_lock_info (some ("myproj\nxyz\n".toList)) = Except.error PyExc.valueError := by
  rfl

/-- C5 (counterexample): with a configured key path whose file is missing on
disk and a configured password, `connect` passes NO credential at all — the
`elif` means the password is never consulted once a key is configured. -/
theorem c5_counterexample :
    connect_auth (SlaveConfig.mk "w1" "10.0.0.2" "root" 22
        (some "/home/u/.ssh/missing") (some "hunter2") "/tmp/ci-farm-builds")
      (fun _ => false) = AuthChoice.noAuth ∧
    AuthChoice.noAuth ≠ AuthChoice.password "hunter2" := by
  exact ⟨rfl, by decide⟩

/-- C5 (amended): `connect` uses the configured key file when it exists on
disk; when a key is configured but its file is missing, no credential is
passed (the password is NOT used); the password is used only when no key is
configured (Python-truthy) and a password is configured. -/
theorem c5_credential_choice (cfg : SlaveConfig) (ex : String → Bool) :
    (∀ k, cfg.key = some k → (k == "") = false → ex k = true →
        connect_auth cfg ex = AuthChoice.keyFile k) ∧
    (∀ k, cfg.key = some k → (k == "") = false → ex k = false →
        connect_auth cfg ex = AuthChoice.noAuth) ∧
    (truthy cfg.key = false → truthy cfg.password = true →
        connect_auth cfg ex = AuthChoice.password (cfg.password.getD "")) ∧
    (truthy cfg.key = false → truthy cfg.password = false →
        connect_auth cfg ex = AuthChoice.noAuth) := by
  refine ⟨?_, ?_, ?_, ?_⟩
  · intro k hk hne hex
    unfold connect_auth truthy
    rw [hk]
    simp [hne, hex]
  · intro k hk hne hex
    unfold connect_auth truthy
    rw [hk]
    simp [hne, hex]
  · intro hk hpw
    unfold connect_auth
    simp [hk, hpw]
  · intro hk hpw
    unfold connect_auth
    simp [hk, hpw]

/-- Witness for C5 at a configuration whose key file exists on disk. -/
theorem c5_credential_choice_witness :
    connect_auth (SlaveConfig.mk "w" "h" "u" 22 (some "/k") none "/b")
      (fun _ => true) = AuthChoice.keyFile "/k" :=
  (c5_credential_choice _ _).1 "/k" rfl (by decide) rfl

/-- The scan loop returns the entry at the first index whose marker exists,
given that every earlier marker is absent. -/
theorem detectFrom_first (ex : String → Bool) :
    ∀ (L : List (String × String)) (i : Nat) (hi : i < L.length),
      (∀ j (hj : j < L.length), j < i → ex (L.get ⟨j, hj⟩).1 = false) →
      ex (L.get ⟨i, hi⟩).1 = true →
      detectFrom ex L = some (L.get ⟨i, hi⟩).2 := by
  intro L
  induction L with
  | nil => intro i hi; simp at hi
  | cons mc rest ih =>
    intro i hi hbefore hhit
    cases i with
    | zero =>
      simp only [List.get] at hhit
      simp [detectFrom, hhit]
    | succ i =>
      have h0 : ex mc.1 = false := hbefore 0 (by simp) (Nat.succ_pos i)
      simp only [List.get] at hhit
      simp only [detectFrom, h0, if_neg (Bool.false_ne_true)]
      exact ih i (Nat.lt_of_succ_lt_succ hi)
        (fun j hj hji => hbefore (j + 1) (Nat.succ_lt_succ hj) (Nat.succ_lt_succ hji))
        hhit

/-- The scan loop returns nothing when no marker exists. -/
theorem detectFrom_none (ex : String → Bool) :
    ∀ L : List (String × String), (∀ mc ∈ L, ex mc.1 = false) →
      detectFrom ex L = none := by
  intro L
  induction L with
  | nil => intro _; rfl
  | cons mc rest ih =>
    intro h
    simp only [detectFrom, h mc (List.mem_cons_self mc rest),
      if_neg (Bool.false_ne_true)]
    exact ih (fun x hx => h x (List.mem_cons_of_mem mc hx))

/-- C8: `detect_build_command` honors the fixed priority table — whenever the
marker at index `i` exists and every earlier marker is absent it returns the
command at index `i` (so with several markers present, the earliest in the
table always wins), and it returns nothing when no marker is present. -/
theorem c8_detect_priority (ex : String → Bool) :
    (∀ i (hi : i < BUILD_MARKERS.length),
      (∀ j (hj : j < BUILD_MARKERS.length), j < i →
          ex (BUILD_MARKERS.get ⟨j, hj⟩).1 = false) →
      ex (BUILD_MARKERS.get ⟨i, hi⟩).1 = true →
      detect_build_command ex = some (BUILD_MARKERS.get ⟨i, hi⟩).2) ∧
    ((∀ mc ∈ BUILD_MARKERS, ex mc.1 = false) → detect_build_command ex = none) :=
  ⟨fun i hi hbefore hhit => detectFrom_first ex BUILD_MARKERS i hi hbefore hhit,
   fun h => detectFrom_none ex BUILD_MARKERS h⟩

/-- Witness for C8: a project containing both `Makefile` and `CMakeLists.txt`
resolves to `make`, the command of the earlier marker. -/
theorem c8_detect_priority_witness :
    detect_build_command (fun m => m == "Makefile" || m == "CMakeLists.txt")
      = some "make" :=
  (c8_detect_priority _).1 0 (by decide)
    (fun j hj hj0 => absurd hj0 (Nat.not_lt_zero j)) (by decide)

/-- C10: lock release is ownerless — `release_lock` ignores the stored record
(identical effect for any two contents), always leaves the worker reporting
not busy, and after a release following any acquire (including one that
overwrote another project's record) the lock is absent. -/
theorem c10_release_ownerless (c c' : List Char) (fs : Option (List Char))
    (p ts : List Char) :
    release_lock (some c) = release_lock (some c') ∧
    is_busy (release_lock fs) = false ∧
    get_lock_info (release_lock (acquire_lock p ts fs)) = Except.ok none := by
  refine ⟨rfl, ?_, rfl⟩
  cases fs <;> rfl

/-! ## Stream-splitting lemmas (for exec_command) -/

/-- A buffer without a newline yields no completed line and stays intact. -/
theorem splitLines_no_nl {s : List Char} (h : '\n' ∉ s) : splitLines s = ([], s) := by
  induction s with
  | nil => rfl
  | cons c cs ih =>
    have hc : ¬ c = '\n' := fun hcc => h (hcc ▸ List.mem_cons_self c cs)
    have hcs : '\n' ∉ cs := fun hm => h (List.mem_cons_of_mem c hm)
    simp [splitLines, ih hcs, hc]

/-- The carry buffer left by the splitter never contains a newline. -/
theorem splitLines_snd_no_nl (s : List Char) : '\n' ∉ (splitLines s).2 := by
  induction s with
  | nil => simp [splitLines]
  | cons c cs ih =>
    by_cases hc : c = '\n'
    · simpa [splitLines, hc] using ih
    · have hc' : ¬ '\n' = c := fun h => hc h.symm
      cases h1 : (splitLines cs).1 with
      | nil => simp [splitLines, hc, h1, ih, hc']
      | cons l ls => simpa [splitLines, hc, h1] using ih

/-- Splitting distributes over append: the lines of `a ++ b` are the lines of
`a` followed by the lines of `a`'s carry prepended to `b`. -/
theorem splitLines_append (a b : List Char) :
    splitLines (a ++ b)
      = ((splitLines a).1 ++ (splitLines ((splitLines a).2 ++ b)).1,
         (splitLines ((splitLines a).2 ++ b)).2) := by
  induction a with
  | nil => simp [splitLines]
  | cons c cs ih =>
    by_cases hc : c = '\n'
    · subst hc
      simp [List.cons_append, splitLines, ih]
    · cases hA : (splitLines cs).1 with
      | nil =>
        have hA2 : splitLines (c :: cs) = ([], c :: (splitLines cs).2) := by
          simp [splitLines, hc, hA]
        rw [List.cons_append]
        rw [hA2]
        simp only [List.nil_append, List.cons_append]
        cases hB : (splitLines ((splitLines cs).2 ++ b)).1 with
        | nil =>
          simp [splitLines, hc, ih, hA, hB]
        | cons l ls =>
          simp [splitLines, hc, ih, hA, hB]
      | cons l ls =>
        have hA2 : splitLines (c :: cs) = ((c :: l) :: ls, (splitLines cs).2) := by
          simp [splitLines, hc, hA]
        rw [List.cons_append, hA2]
        simp only [splitLines, ih, hA, List.cons_append]
        simp [hc]

/-- Chunked processing with a newline-free carry equals splitting the
concatenation: the poll loop neither loses, duplicates, nor reorders data. -/
theorem processChunks_eq (chunks : List (List Char)) :
    ∀ buf : List Char, '\n' ∉ buf →
      processChunks buf chunks = splitLines (buf ++ chunks.flatten) := by
  induction chunks with
  | nil =>
    intro buf hb
    simp [processChunks, splitLines_no_nl hb]
  | cons ch rest ih =>
    intro buf hb
    simp only [processChunks, List.flatten_cons, ← List.append_assoc]
    rw [ih (splitLines (buf ++ ch)).2 (splitLines_snd_no_nl _),
      splitLines_append (buf ++ ch) rest.flatten]

/-- A newline-free line followed by a newline is split off whole. -/
theorem splitLines_line (l : List Char) (s : List Char) (h : '\n' ∉ l) :
    splitLines (l ++ '\n' :: s) = (l :: (splitLines s).1, (splitLines s).2) := by
  induction l with
  | nil => simp [splitLines]
  | cons c cs ih =>
    have hc : ¬ c = '\n' := fun hcc => h (hcc ▸ List.mem_cons_self c cs)
    have hcs : '\n' ∉ cs := fun hm => h (List.mem_cons_of_mem c hm)
    rw [List.cons_append]
    simp [splitLines, ih hcs, hc]

/-- Splitting content of the form `l₁\n…lₙ\nfrag` yields exactly those lines
with `frag` as the carry. -/
theorem splitLines_terminated (lines : List (List Char)) (frag : List Char)
    (hl : ∀ l ∈ lines, '\n' ∉ l) (hf : '\n' ∉ frag) :
    splitLines ((lines.map (· ++ ['\n'])).flatten ++ frag) = (lines, frag) := by
  induction lines with
  | nil => simpa using splitLines_no_nl hf
  | cons l ls ih =>
    have hll : '\n' ∉ l := hl l (List.mem_cons_self l ls)
    have hls : ∀ x ∈ ls, '\n' ∉ x := fun x hx => hl x (List.mem_cons_of_mem l hx)
    simp only [List.map_cons, List.flatten_cons, List.append_assoc,
      List.singleton_append, List.cons_append]
    rw [splitLines_line l _ hll]
    simp only [List.nil_append]
    rw [ih hls]

/-- C3: when a stream's combined arriving bytes are `N` newline-terminated
lines followed by a non-empty unterminated fragment, the corresponding sink is
called exactly `N` times inside the poll loop with those lines in arrival
order, and the fragment is delivered exactly once by the flush that runs after
the exit status is observed — for both stdout and stderr. -/
theorem c3_stream_delivery
    (outChunks errChunks outLines errLines : List (List Char))
    (outFrag errFrag : List Char) (status : Nat)
    (hout : outChunks.flatten = (outLines.map (· ++ ['\n'])).flatten ++ outFrag)
    (houtNl : ∀ l ∈ outLines, '\n' ∉ l) (houtF : '\n' ∉ outFrag)
    (houtNe : outFrag ≠ [])
    (herr : errChunks.flatten = (errLines.map (· ++ ['\n'])).flatten ++ errFrag)
    (herrNl : ∀ l ∈ errLines, '\n' ∉ l) (herrF : '\n' ∉ errFrag)
    (herrNe : errFrag ≠ []) :
    (exec_command outChunks errChunks status).stdout_events
        = ⟨outLines, [outFrag]⟩ ∧
    (exec_command outChunks errChunks status).stderr_events
        = ⟨errLines, [errFrag]⟩ := by
  have hstream : ∀ (chunks lines : List (List Char)) (frag : List Char),
      chunks.flatten = (lines.map (· ++ ['\n'])).flatten ++ frag →
      (∀ l ∈ lines, '\n' ∉ l) → '\n' ∉ frag → frag ≠ [] →
      runStream chunks = ⟨lines, [frag]⟩ := by
    intro chunks lines frag hj hnl hf hne
    unfold runStream
    rw [processChunks_eq chunks [] (by simp), List.nil_append, hj,
      splitLines_terminated lines frag hnl hf]
    cases frag with
    | nil => exact absurd rfl hne
    | cons x xs => rfl
  exact ⟨hstream _ _ _ hout houtNl houtF houtNe,
         hstream _ _ _ herr herrNl herrF herrNe⟩

/-- Witness for C3: stdout arrives as chunks `"a"`, `"b\nc"` (one line `"ab"`
plus fragment `"c"`); stderr arrives as `"e\n"`, `"f"`. -/
theorem c3_stream_delivery_witness :
    (exec_command [['a'], ['b', '\n', 'c']] [['e', '\n'], ['f']] 0).stdout_events
        = ⟨[['a', 'b']], [['c']]⟩ ∧
    (exec_command [['a'], ['b', '\n', 'c']] [['e', '\n'], ['f']] 0).stderr_events
        = ⟨[['e']], [['f']]⟩ :=
  c3_stream_delivery [['a'], ['b', '\n', 'c']] [['e', '\n'], ['f']]
    [['a', 'b']] [['e']] ['c'] ['f'] 0
    (by decide) (by decide) (by decide) (by decide)
    (by decide) (by decide) (by decide) (by decide)

/-! ## Lock record round-trip (C6) -/

/-- `pySplit` never returns the empty list. -/
theorem pySplit_ne_nil (sep : Char) (s : List Char) : pySplit sep s ≠ [] := by
  cases s with
  | nil => simp [pySplit]
  | cons c cs =>
    simp only [pySplit]
    cases h : pySplit sep cs with
    | nil => simp
    | cons l ls => by_cases hc : c == sep <;> simp [hc]

/-- Splitting a separator-free string yields that single field. -/
theorem pySplit_no_sep {sep : Char} {s : List Char} (h : sep ∉ s) :
    pySplit sep s = [s] := by
  induction s with
  | nil => rfl
  | cons c cs ih =>
    have hc : ¬ c = sep := fun e => h (e ▸ List.mem_cons_self c cs)
    have hcs : sep ∉ cs := fun m => h (List.mem_cons_of_mem c m)
    simp [pySplit, ih hcs, hc]

/-- Splitting separates a separator-free prefix from the rest. -/
theorem pySplit_append {sep : Char} {a : List Char} (b : List Char) (h : sep ∉ a) :
    pySplit sep (a ++ sep :: b) = a :: pySplit sep b := by
  induction a with
  | nil =>
    simp only [List.nil_append, pySplit]
    cases hb : pySplit sep b with
    | nil => exact absurd hb (pySplit_ne_nil sep b)
    | cons l ls => simp
  | cons c cs ih =>
    have hc : ¬ c = sep := fun e => h (e ▸ List.mem_cons_self c cs)
    have hcs : sep ∉ cs := fun m => h (List.mem_cons_of_mem c m)
    rw [List.cons_append]
    simp only [pySplit, ih hcs]
    simp [hc]

/-- Stripping the lock record's content removes exactly the final newline when
the project name starts and the timestamp ends with non-whitespace. -/
theorem pyStrip_lockContent (c0 : Char) (p' t' : List Char) (d : Char)
    (hc : isPySpace c0 = false) (hd : isPySpace d = false) :
    pyStrip (lockContent (c0 :: p') (t' ++ [d]))
      = (c0 :: p') ++ '\n' :: (t' ++ [d]) := by
  unfold lockContent pyStrip
  rw [List.cons_append]
  rw [List.dropWhile_cons_of_neg (by simp [hc])]
  rw [← List.cons_append]
  have h2 : ((c0 :: p') ++ '\n' :: ((t' ++ [d]) ++ ['\n'])).reverse
      = '\n' :: d :: (t'.reverse ++ ('\n' :: (c0 :: p').reverse)) := by
    simp [List.reverse_append]
  rw [h2]
  rw [List.dropWhile_cons_of_pos (by simp [isPySpace])]
  rw [List.dropWhile_cons_of_neg (by simp [hd])]
  simp [List.reverse_append, List.append_assoc]

/-- C6 (amended): for a project name that starts with a non-whitespace
character and contains no newline, and a timestamp rendering that ends with a
non-whitespace character, contains no newline, and parses as `t`: after
`acquire_lock` the worker reports busy and `get_lock_info` returns exactly
`(name, t)`; after `release_lock` the worker reports not busy; and releasing
an absent lock is not an error. -/
theorem c6_lock_observables (c0 : Char) (p' t' : List Char) (d : Char)
    (t : ℚ) (fs : Option (List Char))
    (hp : '\n' ∉ c0 :: p') (hts : '\n' ∉ t' ++ [d])
    (hc : isPySpace c0 = false) (hd : isPySpace d = false)
    (hparse : parsePyFloat (t' ++ [d]) = some t) :
    is_busy (acquire_lock (c0 :: p') (t' ++ [d]) fs) = true ∧
    get_lock_info (acquire_lock (c0 :: p') (t' ++ [d]) fs)
      = Except.ok (some (c0 :: p', t)) ∧
    is_busy (release_lock (acquire_lock (c0 :: p') (t' ++ [d]) fs)) = false ∧
    release_lock none = none := by
  refine ⟨rfl, ?_, rfl, rfl⟩
  have hsplit : pySplit '\n' (pyStrip (lockContent (c0 :: p') (t' ++ [d])))
      = (c0 :: p') :: [t' ++ [d]] := by
    rw [pyStrip_lockContent c0 p' t' d hc hd]
    rw [pySplit_append _ hp, pySplit_no_sep hts]
  show get_lock_info (some (lockContent (c0 :: p') (t' ++ [d]))) = _
  simp only [get_lock_info]
  rw [hsplit]
  simp [hparse]

/-- Witness for C6 with project name `myapp`, timestamp string `100.5`
(parsed value `201/2`), on an initially free worker. -/
theorem c6_lock_observables_witness :
    is_busy (acquire_lock ('m' :: "yapp".toList) ("100.".toList ++ ['5']) none)
      = true ∧
    get_lock_info (acquire_lock ('m' :: "yapp".toList) ("100.".toList ++ ['5']) none)
      = Except.ok (some ('m' :: "yapp".toList, (201 : ℚ) / 2)) ∧
    is_busy (release_lock
        (acquire_lock ('m' :: "yapp".toList) ("100.".toList ++ ['5']) none))
      = false ∧
    release_lock none = none :=
  c6_lock_observables 'm' "yapp".toList "100.".toList '5' ((201 : ℚ) / 2) none
    (by decide) (by decide) (by decide) (by decide)
    (by
      have h : (201 : ℚ) / 2 = 1 * ((100 : ℚ) + (5 : ℚ) / (10 : ℚ) ^ (1 : Nat)) := by
        norm_num
      rw [h]
      rfl)

/-- C6 (counterexample): a project name with a leading space is not returned
intact — `strip()` removes the space, so `inspect` after `acquire(" myapp")`
yields `("myapp", t)`, not `(" myapp", t)` as the universally quantified claim
requires. -/
theorem c6_counterexample :
    is_busy (acquire_lock " myapp".toList "100.5".toList none) = true ∧
    get_lock_info (acquire_lock " myapp".toList "100.5".toList none)
      = Except.ok (some ("myapp".toList, (201 : ℚ) / 2)) ∧
    "myapp".toList ≠ " myapp".toList := by
  refine ⟨rfl, ?_, by decide⟩
  have h : (201 : ℚ) / 2 = 1 * ((100 : ℚ) + (5 : ℚ) / (10 : ℚ) ^ (1 : Nat)) := by
    norm_num
  rw [h]
  rfl

/-! ## Worker selection (C9) -/

/-- Outcome of one probe, abstracting the message: `some b` when
`check_slave_available` returns availability `b`, `none` when it raises. -/
def probe_avail (pr : SlaveProbe) : Option Bool :=
  match check_slave_available pr with
  | .ok (b, _) => some b
  | .error _ => none

/-- A non-raising probe determines the full `check_slave_available` result up
to its message. -/
theorem check_of_probe_avail {pr : SlaveProbe} {b : Bool}
    (h : probe_avail pr = some b) :
    ∃ m, check_slave_available pr = .ok (b, m) := by
  unfold probe_avail at h
  cases hch : check_slave_available pr with
  | error e => rw [hch] at h; exact absurd h (by simp)
  | ok r =>
    rw [hch] at h
    simp only [Option.some.injEq] at h
    exact ⟨r.2, by rw [← h]⟩

/-- C9 (amended): `find_available_slave` probes the ordered worker list
sequentially and returns the first worker whose probe succeeds and reports
not busy, probing exactly the workers up to and including it (later workers
are never probed); when every worker's probe completes and reports
unavailable (unreachable or busy), it probes all of them and returns
nothing.  The hypotheses `probe_avail _ = some _` record that no probe
raises — a busy worker with a malformed lock record makes the probe raise
`ValueError` instead (see the counterexample). -/
theorem c9_first_available {α : Type} (env : α → SlaveProbe) :
    (∀ (pre : List α) (w : α) (post : List α),
      (∀ s ∈ pre, probe_avail (env s) = some false) →
      probe_avail (env w) = some true →
      find_available_slave env (pre ++ w :: post) = (pre ++ [w], .ok (some w))) ∧
    (∀ slaves : List α,
      (∀ s ∈ slaves, probe_avail (env s) = some false) →
      find_available_slave env slaves = (slaves, .ok none)) := by
  constructor
  · intro pre w post hpre hw
    induction pre with
    | nil =>
      obtain ⟨m, hm⟩ := check_of_probe_avail hw
      simp [find_available_slave, hm]
    | cons s pre' ih =>
      obtain ⟨m, hm⟩ := check_of_probe_avail (hpre s (List.mem_cons_self s pre'))
      have ih' := ih (fun x hx => hpre x (List.mem_cons_of_mem s hx))
      simp [find_available_slave, hm, ih']
  · intro slaves hall
    induction slaves with
    | nil => rfl
    | cons s rest ih =>
      obtain ⟨m, hm⟩ := check_of_probe_avail (hall s (List.mem_cons_self s rest))
      have ih' := ih (fun x hx => hall x (List.mem_cons_of_mem s hx))
      simp [find_available_slave, hm, ih']

/-- Witness for C9: worker `0` is unreachable, worker `1` is free, worker `2`
is never probed. -/
theorem c9_first_available_witness :
    find_available_slave
      (fun n : Nat => if n = 0 then SlaveProbe.mk false none else SlaveProbe.mk true none)
      ([0] ++ 1 :: [2])
      = ([0] ++ [1], Except.ok (some 1)) :=
  (c9_first_available
      (fun n : Nat => if n = 0 then SlaveProbe.mk false none else SlaveProbe.mk true none)).1
    [0] 1 [2]
    (fun s hs => by
      have h0 : s = 0 := by simpa using hs
      subst h0
      rfl)
    rfl

/-- C9 (counterexample): with a single worker that is reachable and busy but
whose lock record has a malformed timestamp, `find_available_slave` raises
`ValueError` out of the probe instead of returning nothing, although every
worker is busy. -/
theorem c9_counterexample :
    find_available_slave
      (fun _ : Nat => SlaveProbe.mk true (some ("p\nxyz".toList))) [0]
      = ([0], Except.error PyExc.valueError) ∧
    is_busy (SlaveProbe.mk true (some ("p\nxyz".toList))).lock_fs = true :=
  ⟨rfl, rfl⟩

end CiFarm
